import Mathlib

/-! Shallow embedding of the per-run signal-conditioning pipeline of
`scripts/06.first_level/timecourse_pipeline.py`.

Conventions of the embedding:
* A confound-table cell is `Option ℚ`: `none` models a missing value
  (`n/a` marker, parsed by pandas to NaN); `some q` a numeric entry.
* A tabular file on disk is `Option (List String)`: `none` models an
  absent file, `some lines` the list of its data lines (a zero-byte
  file is `some []`).
* Python exceptions are modelled by `Except`/`Option` error results.
* 4-D volumes are abstracted frame-wise: a 3-D frame is an arbitrary
  type `α`, and a frame of the padded series is `Option α`, where
  `none` models the all-NaN frame inserted at scrubbed indices.
-/

/-- Errors raised inside `create_motion_reg` / the outlier loading code:
`fileNotFound` models Python's `FileNotFoundError` (an absent file),
`parseError` a failed `astype(int)` on a malformed outlier file,
`keyError` a missing confound column, and `indexError` numpy's
`IndexError` from `np.delete` on an out-of-range index. -/
inductive RegErr where
  | fileNotFound
  | parseError
  | keyError
  | indexError
deriving DecidableEq, Repr

instance {ε α : Type} [DecidableEq ε] [DecidableEq α] : DecidableEq (Except ε α) := fun a b =>
  match a, b with
  | Except.ok x, Except.ok y =>
      if h : x = y then isTrue (by rw [h]) else isFalse (by intro he; cases he; exact h rfl)
  | Except.error x, Except.error y =>
      if h : x = y then isTrue (by rw [h]) else isFalse (by intro he; cases he; exact h rfl)
  | Except.ok _, Except.error _ => isFalse (by intro he; cases he)
  | Except.error _, Except.ok _ => isFalse (by intro he; cases he)

/-- A confound table: named numeric columns, one row per acquired
timepoint, cells possibly missing (source: `pd.read_csv(confound_file,
sep='\t', na_values='n/a')`). -/
abbrev ConfoundTable := List (String × List (Option ℚ))

/-- Column lookup in the confound table; `none` models the `KeyError`
raised by `confounds[regressor]` on an unknown column name. -/
def getColumn (confounds : ConfoundTable) (name : String) : Option (List (Option ℚ)) :=
  (confounds.find? (fun c => c.1 = name)).map (fun c => c.2)

/-- The numeric value of one decimal digit character, `none` for a
non-digit. -/
def digitVal (c : Char) : Option Nat :=
  if '0' ≤ c ∧ c ≤ '9' then some (c.toNat - '0'.toNat) else none

/-- Accumulate a decimal numeral; any non-digit character fails. -/
def parseNatAux : List Char → Nat → Option Nat
  | [], acc => some acc
  | c :: cs, acc =>
    match digitVal c with
    | none => none
    | some d => parseNatAux cs (acc * 10 + d)

/-- Parse one outlier-file line as an integer (an optional leading minus
sign followed by decimal digits), modelling pandas `astype(int)`;
`none` models the fatal parse error on malformed content. -/
def parseIntString (s : String) : Option Int :=
  match s.data with
  | [] => none
  | '-' :: cs =>
      if cs = [] then none else (parseNatAux cs 0).map (fun m => -(m : Int))
  | cs => (parseNatAux cs 0).map (fun m => (m : Int))

/-- Source lines 175-178: read the rapidart outlier file.
`pd.read_csv(art_file, header=None)[0].astype(int)` raises
`EmptyDataError` on a zero-byte file, which the code catches and turns
into an empty list; a FileNotFoundError (absent file) and a failed
integer parse are NOT caught and propagate. -/
def readOutliers (artFile : Option (List String)) : Except RegErr (List Int) :=
  match artFile with
  | none => Except.error RegErr.fileNotFound
  | some [] => Except.ok []
  | some lines =>
      lines.mapM (fun s =>
        match parseIntString s with
        | none => Except.error RegErr.parseError
        | some i => Except.ok i)

/-- One value of the regressor dictionary: either a single confound
column name or a family of column names (source lines 144-146). -/
inductive RegEntry where
  | single (name : String)
  | multi (names : List String)
deriving DecidableEq, Repr

/-- Source lines 144-146: the fixed mapping between config-file aliases
and confound-file column labels. -/
def regressor_dict : List (String × RegEntry) :=
  [("FD", RegEntry.single ("framewise_displacement")),
   ("DVARS", RegEntry.single ("std_dvars")),
   ("aCompCor", RegEntry.multi
      ["a_comp_cor_00", "a_comp_cor_01", "a_comp_cor_02",
       "a_comp_cor_03", "a_comp_cor_04"])]

/-- Dictionary lookup `regressor_dict[r]`, `none` when `r` is not a key. -/
def lookupRegressor (r : String) : Option RegEntry :=
  (regressor_dict.find? (fun c => c.1 = r)).map (fun c => c.2)

/-- Source line 149: `{r: regressor_dict[r] for r in regressor_opts if r
in regressor_dict}.values()` — keep, in order, the dictionary entries of
the recognized aliases; unrecognized aliases are filtered out. -/
def regressor_list (regressor_opts : List String) : List RegEntry :=
  regressor_opts.filterMap lookupRegressor

/-- Source lines 152-158: flatten nested lists (e.g. the aCompCor
family) into a flat list of column names. -/
def regressor_names_of (regressor_opts : List String) : List String :=
  (regressor_list regressor_opts).flatMap (fun e =>
    match e with
    | RegEntry.single n => [n]
    | RegEntry.multi ns => ns)

/-- Source lines 182-190: per-regressor column extraction.
`framewise_displacement` and `std_dvars` get `.fillna(0)` before the
`.iloc[dropvols:]` slice; every other column is sliced unchanged. -/
def processRegressor (confounds : ConfoundTable) (dropvols : Nat) (regressor : String) :
    Option (List (Option ℚ)) :=
  (getColumn confounds regressor).map (fun col =>
    if regressor = "framewise_displacement" then
      (col.map (fun v => some (v.getD 0))).drop dropvols
    else if regressor = "std_dvars" then
      (col.map (fun v => some (v.getD 0))).drop dropvols
    else
      col.drop dropvols)

/-- Row count of `pd.DataFrame(regressors).transpose()` (source lines
192-196): pandas aligns the series on their shared index, so the row
count is the longest column length (all columns are equal-length slices
in practice). -/
def motionParamsRows (cols : List (List (Option ℚ))) : Nat :=
  (cols.map List.length).foldr max 0

/-- Normalize one numpy index against axis length `n`: negative indices
count from the end; an index outside `[-n, n)` raises `IndexError`
(`none`). -/
def normIdx (n : Nat) (i : Int) : Option Nat :=
  if 0 ≤ i ∧ i < (n : Int) then some i.toNat
  else if -(n : Int) ≤ i ∧ i < 0 then some (i + n).toNat
  else none

/-- Model of `np.delete(xs, idxs)` on a 1-D array: remove the elements at the
listed positions; any out-of-range position raises `IndexError`
(`none`). -/
def npDelete {α : Type} (xs : List α) (idxs : List Int) : Option (List α) :=
  match idxs.mapM (normIdx xs.length) with
  | none => none
  | some ks =>
      some (((List.range xs.length).filter (fun j => decide (j ∉ ks))).filterMap
        (fun j => xs.get? j))

/-- Source lines 195-204: the retained-volume vector.  Start from
`np.arange(rows)`; when `'art'` is among the regressor options and the
outlier list is non-empty, delete the outlier positions with
`np.delete`. -/
def compute_vol_indx (rows : Nat) (regressor_opts : List String) (outliers : List Int) :
    Except RegErr (List Nat) :=
  if regressor_opts.contains ("art") ∧ outliers ≠ [] then
    match npDelete (List.range rows) outliers with
    | none => Except.error RegErr.indexError
    | some v => Except.ok v
  else
    Except.ok (List.range rows)

/-- The triple returned by `create_motion_reg`: the regressor columns
(post-drop), the retained-volume vector, and the outlier list. -/
structure MotionRegOutput where
  motion_params : List (List (Option ℚ))
  vol_indx : List Nat
  outliers : List Int
deriving DecidableEq, Repr

/-- Source lines 180-190, the `for regressor in regressor_names` loop:
extract and post-process each requested confound column in order,
appending to the `regressors` list; a missing column aborts with a
`KeyError`. -/
def extract_regressors (confounds : ConfoundTable) (dropvols : Nat) :
    List String → Except RegErr (List (List (Option ℚ)))
  | [] => Except.ok []
  | r :: rest =>
    match processRegressor confounds dropvols r with
    | none => Except.error RegErr.keyError
    | some col =>
        (extract_regressors confounds dropvols rest).map (fun cols => col :: cols)

/-- Source lines 164-214, `create_motion_reg`: read the outlier file,
extract and post-process each requested confound column, drop the
leading `dropvols` rows, and compute the retained-volume vector. -/
def create_motion_reg (confounds : ConfoundTable) (artFile : Option (List String))
    (regressor_opts regressor_names : List String) (dropvols : Nat) :
    Except RegErr MotionRegOutput := do
  let outliers ← readOutliers artFile
  let regressors ← extract_regressors confounds dropvols regressor_names
  let rows := motionParamsRows regressors
  let vol_indx ← compute_vol_indx rows regressor_opts outliers
  Except.ok ⟨regressors, vol_indx, outliers⟩

/-- Zero-padded two-digit run id, Python's `'{:02d}'.format(run_id)`. -/
def pad2 (k : Nat) : String :=
  if k < 10 then ("0") ++ toString k else toString k

/-- One cell of the persisted tab-separated file: pandas writes an empty
field for NaN. -/
def cellStr : Option ℚ → String
  | none => ""
  | some q => toString q

/-- The persisted regressor matrix (`to_csv(..., index=False,
header=False, sep='\t')`): one line per row, cells tab-separated. -/
def matrixTsv (cols : List (List (Option ℚ))) : String :=
  String.intercalate ("\n")
    ((List.range (motionParamsRows cols)).map (fun i =>
      String.intercalate ("\t")
        (cols.map (fun c => cellStr ((c.get? i).getD none)))))

/-- The persisted retained-volume vector: one index per line. -/
def maskTsv (mask : List Nat) : String :=
  String.intercalate ("\n") (mask.map toString)

/-- Source lines 206-212: the two files persisted by
`create_motion_reg`, as (file name, file content) pairs. -/
def persisted_files (sub : String) (run_id : Nat) (out : MotionRegOutput) :
    (String × String) × (String × String) :=
  (("sub-" ++ sub ++ "_run-" ++ pad2 run_id ++ "_confounds.txt",
      matrixTsv out.motion_params),
   ("sub-" ++ sub ++ "_run-" ++ pad2 run_id ++ "_retained_volumes.txt",
      maskTsv out.vol_indx))

/-- The keyword arguments built for `image.clean_img` (source lines
270-279): which filter-specific parameters accompany the sample mask. -/
inductive CleanKwargs where
  | butterworth (sample_mask : List Nat) (t_r : ℚ) (high_pass : ℚ)
  | cosine (sample_mask : List Nat) (t_r : ℚ) (high_pass : ℚ)
  | maskOnly (sample_mask : List Nat)
deriving DecidableEq, Repr

/-- Source lines 270-279: select the `clean_img` keyword arguments from
the configured filter mode.  The `else` branch passes only the sample
mask (no temporal filter). -/
def filter_kwargs (filter_opt : String) (vol_indx : List Nat) (TR hpf_hz : ℚ) :
    CleanKwargs :=
  if filter_opt = "butterworth" then
    CleanKwargs.butterworth vol_indx TR hpf_hz
  else if filter_opt = "cosine" then
    CleanKwargs.cosine vol_indx TR hpf_hz
  else
    CleanKwargs.maskOnly vol_indx

/-- Source lines 305-314, the padding loop body: walk the remaining
volume indices; at an index contained in `vol_indx` emit the denoised
frame at cursor `d` (`image.index_img(denoise_img, d)`, `none` result =
IndexError) and advance the cursor, otherwise emit the all-NaN frame
(modelled `none`). -/
def padGo {α : Type} (denoise : List α) (vol_indx : List Nat) :
    List Nat → Nat → Option (List (Option α))
  | [], _ => some []
  | v :: vs, d =>
    if v ∈ vol_indx then
      match denoise.get? d with
      | none => none
      | some frame =>
          (padGo denoise vol_indx vs (d + 1)).map (fun rest => some frame :: rest)
    else
      (padGo denoise vol_indx vs d).map (fun rest => none :: rest)

/-- Source lines 296-317: pad the denoised series with NaN frames at
every scrubbed index, iterating `all_vols_vec = np.arange(nVols)` with
the cursor started at `d = 0`, then concatenate in index order. -/
def padSeries {α : Type} (denoise : List α) (vol_indx : List Nat) (nVols : Nat) :
    Option (List (Option α)) :=
  padGo denoise vol_indx (List.range nVols) 0

/-- Extract the padded series at the listed indices, in order, keeping
the non-missing frames. -/
def extractAt {α : Type} (padded : List (Option α)) (mask : List Nat) : List α :=
  mask.filterMap (fun i => (padded.get? i).getD none)

/-! ### Helper lemmas -/

theorem filterMap_congr_mem {α β : Type} (f g : α → Option β) :
    ∀ (l : List α), (∀ a ∈ l, f a = g a) → l.filterMap f = l.filterMap g := by
  intro l
  induction l with
  | nil => intro _; rfl
  | cons a l ih =>
      intro h
      rw [List.filterMap_cons, List.filterMap_cons, h a (List.mem_cons_self a l),
        ih (fun b hb => h b (List.mem_cons_of_mem a hb))]

/-! ### Claim theorems -/

/-- Claim C3 (counterexample): an unrecognized filter-mode string does
NOT raise a configuration error — `denoise_data` builds exactly the same
`clean_img` keyword arguments as for mode `none` (only the sample mask)
and proceeds with the cleaning. -/
theorem unrecognized_filter_no_error_cex :
    filter_kwargs ("bogus") [0, 1] 2 (1/128) = CleanKwargs.maskOnly [0, 1] ∧
    filter_kwargs ("bogus") [0, 1] 2 (1/128) = filter_kwargs ("none") [0, 1] 2 (1/128) := by
  constructor <;> rfl

/-- Claim C3 (amended): every filter-mode string other than
`butterworth` and `cosine` — recognized (`none`) or not — falls through
to the `else` branch: the cleaning proceeds with only the sample mask,
identically to mode `none`, and no error is raised. -/
theorem unrecognized_filter_treated_as_none (s : String) (v : List Nat) (TR hpf_hz : ℚ)
    (hb : s ≠ "butterworth") (hc : s ≠ "cosine") :
    filter_kwargs s v TR hpf_hz = CleanKwargs.maskOnly v ∧
    filter_kwargs s v TR hpf_hz = filter_kwargs ("none") v TR hpf_hz := by
  unfold filter_kwargs
  rw [if_neg hb, if_neg hc]
  exact ⟨rfl, rfl⟩

/-- Witness for C3's amended theorem at a concrete unrecognized mode. -/
theorem unrecognized_filter_treated_as_none_witness :
    filter_kwargs ("bandpass") [0] 2 1 = CleanKwargs.maskOnly [0] ∧
    filter_kwargs ("bandpass") [0] 2 1 = filter_kwargs ("none") [0] 2 1 :=
  unrecognized_filter_treated_as_none ("bandpass") [0] 2 1 (by decide) (by decide)

/-- Claim C4 (counterexample): an absent outlier file is NOT tolerated —
only `EmptyDataError` is caught, so `pd.read_csv` on a missing path
raises `FileNotFoundError`. -/
theorem absent_outlier_file_raises_cex :
    readOutliers none = Except.error RegErr.fileNotFound := rfl

/-- Claim C4 (amended): a zero-byte outlier file yields an empty
OutlierList without raising (the `EmptyDataError` branch) and the
downstream SampleMask is the full retained range `[0, n)`; an absent
file, by contrast, raises a file-not-found error. -/
theorem empty_outlier_file_ok (n : Nat) (opts : List String) :
    readOutliers (some []) = Except.ok [] ∧
    compute_vol_indx n opts [] = Except.ok (List.range n) := by
  refine ⟨rfl, ?_⟩
  unfold compute_vol_indx
  simp

/-- Claim C6 (counterexample): an unrecognized regressor alias is
silently ignored, not fatal — the dictionary comprehension filters it
out and the remaining aliases are processed as usual. -/
theorem unrecognized_alias_no_error_cex :
    regressor_names_of ["bogus", "FD"] = ["framewise_displacement"] := by decide

/-- Claim C6 (amended): a requested regressor kind outside the fixed
alias set contributes nothing to the resolved column list and raises no
error: the `if r in regressor_dict` filter drops it silently. -/
theorem unrecognized_alias_dropped (r : String) (opts : List String)
    (h : lookupRegressor r = none) :
    regressor_names_of (r :: opts) = regressor_names_of opts := by
  unfold regressor_names_of regressor_list
  rw [List.filterMap_cons_none h]

/-- Witness for C6's amended theorem at a concrete unrecognized alias. -/
theorem unrecognized_alias_dropped_witness :
    regressor_names_of ("acompcor" :: ["FD", "aCompCor"]) =
      regressor_names_of ["FD", "aCompCor"] :=
  unrecognized_alias_dropped ("acompcor") ["FD", "aCompCor"] (by decide)

/-- Claim C8: with scrubbing disabled (`'art'` absent from the regressor
options) the retained-volume vector is the full range `[0, n)`, whatever
the (non-empty) outlier list contains. -/
theorem scrub_disabled_full_mask (n : Nat) (opts : List String) (outliers : List Int)
    (hart : "art" ∉ opts) (_hne : outliers ≠ []) :
    compute_vol_indx n opts outliers = Except.ok (List.range n) := by
  unfold compute_vol_indx
  rw [if_neg]
  intro hcond
  exact hart (by simpa using hcond.1)

/-- Witness for C8 at a concrete run configuration. -/
theorem scrub_disabled_full_mask_witness :
    compute_vol_indx 4 ["FD", "aCompCor"] [1, 2] = Except.ok (List.range 4) :=
  scrub_disabled_full_mask 4 ["FD", "aCompCor"] [1, 2] (by decide) (by decide)

/-- Claim C9: `create_motion_reg` is deterministic — the returned triple
and both persisted files (names and byte contents) are a function of the
confound-file contents, outlier-file contents, regressor options, drop
count, subject and run id only, so two invocations on identical inputs
agree byte-for-byte. -/
theorem create_motion_reg_deterministic
    (c₁ c₂ : ConfoundTable) (a₁ a₂ : Option (List String))
    (o₁ o₂ m₁ m₂ : List String) (d₁ d₂ : Nat) (s₁ s₂ : String) (r₁ r₂ : Nat)
    (hc : c₁ = c₂) (ha : a₁ = a₂) (ho : o₁ = o₂) (hm : m₁ = m₂) (hd : d₁ = d₂)
    (hs : s₁ = s₂) (hr : r₁ = r₂) :
    create_motion_reg c₁ a₁ o₁ m₁ d₁ = create_motion_reg c₂ a₂ o₂ m₂ d₂ ∧
    (create_motion_reg c₁ a₁ o₁ m₁ d₁).map (persisted_files s₁ r₁) =
      (create_motion_reg c₂ a₂ o₂ m₂ d₂).map (persisted_files s₂ r₂) := by
  subst hc; subst ha; subst ho; subst hm; subst hd; subst hs; subst hr
  exact ⟨rfl, rfl⟩

/-- Witness for C9 at a concrete input. -/
theorem create_motion_reg_deterministic_witness :
    create_motion_reg [("framewise_displacement", [none, some 1])] (some [])
        ["FD"] ["framewise_displacement"] 0 =
      create_motion_reg [("framewise_displacement", [none, some 1])] (some [])
        ["FD"] ["framewise_displacement"] 0 ∧
    (create_motion_reg [("framewise_displacement", [none, some 1])] (some [])
        ["FD"] ["framewise_displacement"] 0).map (persisted_files ("104") 1) =
      (create_motion_reg [("framewise_displacement", [none, some 1])] (some [])
        ["FD"] ["framewise_displacement"] 0).map (persisted_files ("104") 1) :=
  create_motion_reg_deterministic _ _ _ _ _ _ _ _ _ _ _ _ _ _
    rfl rfl rfl rfl rfl rfl rfl

theorem mapM_normIdx_of_bounded (n : Nat) (outliers : List Int)
    (h : ∀ i ∈ outliers, 0 ≤ i ∧ i < (n : Int)) :
    outliers.mapM (normIdx n) = some (outliers.map Int.toNat) := by
  induction outliers with
  | nil => rfl
  | cons a l ih =>
      have ha := h a (List.mem_cons_self a l)
      rw [List.mapM_cons]
      simp only [normIdx]
      rw [if_pos ha, ih (fun i hi => h i (List.mem_cons_of_mem a hi))]
      rfl

theorem compute_vol_indx_ok_of_bounded (n : Nat) (opts : List String) (outliers : List Int)
    (h : ∀ i ∈ outliers, 0 ≤ i ∧ i < (n : Int)) :
    ∃ mask, compute_vol_indx n opts outliers = Except.ok mask := by
  unfold compute_vol_indx
  split
  · unfold npDelete
    rw [List.length_range, mapM_normIdx_of_bounded n outliers h]
    exact ⟨_, rfl⟩
  · exact ⟨_, rfl⟩

/-- Claim C10: the SampleMask computation is only total when every
outlier index is below the post-drop row count: with scrubbing enabled,
an outlier index `≥ n` (possible because rapidart indexes the pre-drop
series) makes `np.delete` raise `IndexError`, while under the
precondition that the indices lie in `[0, n)` the error branch is
unreachable and a mask is returned. -/
theorem vol_indx_requires_bounded_outliers :
    compute_vol_indx 2 ["art"] [5] = Except.error RegErr.indexError ∧
    ∀ (n : Nat) (opts : List String) (outliers : List Int),
      (∀ i ∈ outliers, 0 ≤ i ∧ i < (n : Int)) →
      ∃ mask, compute_vol_indx n opts outliers = Except.ok mask := by
  exact ⟨rfl, compute_vol_indx_ok_of_bounded⟩

/-- Witness for C10: a concrete failing input and a concrete bounded
input on which the error branch is not taken. -/
theorem vol_indx_requires_bounded_outliers_witness :
    compute_vol_indx 2 ["art"] [5] = Except.error RegErr.indexError ∧
    ∃ mask, compute_vol_indx 3 ["art"] [0, 2] = Except.ok mask :=
  ⟨vol_indx_requires_bounded_outliers.1,
   vol_indx_requires_bounded_outliers.2 3 ["art"] [0, 2] (by decide)⟩

/-- Claim C7 (counterexample): a missing value in a non-FD/DVARS column
is NOT a fatal input error — `create_motion_reg` succeeds, passing the
missing value through into the persisted regressor matrix. -/
theorem missing_value_tolerated_cex :
    create_motion_reg [("a_comp_cor_00", [some 1, none, some 2])] (some [])
        ["aCompCor"] ["a_comp_cor_00"] 0 =
      Except.ok ⟨[[some 1, none, some 2]], [0, 1, 2], []⟩ := rfl

/-- Claim C7 (amended): `framewise_displacement` and `std_dvars` columns
get every missing value replaced by zero (so no missing entry survives);
every other kind is passed through unchanged — a missing value there is
NOT detected: no error is raised and the value flows into the matrix. -/
theorem missing_value_policy (confounds : ConfoundTable) (name : String)
    (col : List (Option ℚ)) (dropvols : Nat)
    (hcol : getColumn confounds name = some col) :
    ((name = "framewise_displacement" ∨ name = "std_dvars") →
      processRegressor confounds dropvols name =
        some ((col.map (fun v => some (v.getD 0))).drop dropvols) ∧
      ∀ v ∈ (col.map (fun v : Option ℚ => some (v.getD 0))).drop dropvols, v ≠ none) ∧
    (name ≠ "framewise_displacement" → name ≠ "std_dvars" →
      processRegressor confounds dropvols name = some (col.drop dropvols)) := by
  constructor
  · intro hmem
    constructor
    · unfold processRegressor
      rw [hcol, Option.map_some']
      rcases hmem with h | h <;> rw [h] <;> simp
    · intro v hv
      have hv' := List.mem_of_mem_drop hv
      rw [List.mem_map] at hv'
      obtain ⟨w, _, rfl⟩ := hv'
      simp
  · intro h1 h2
    unfold processRegressor
    rw [hcol, Option.map_some', if_neg h1, if_neg h2]

/-- Witness for C7's amended theorem: the fill-to-zero branch and the
pass-through branch evaluated at concrete columns. -/
theorem missing_value_policy_witness :
    processRegressor [("framewise_displacement", [none, some 1])] 0
        "framewise_displacement" = some [some 0, some 1] ∧
    processRegressor [("a_comp_cor_00", [some 1, none])] 0
        "a_comp_cor_00" = some [some 1, none] := by
  constructor
  · exact ((missing_value_policy [("framewise_displacement", [none, some 1])]
      "framewise_displacement" [none, some 1] 0 (by decide)).1 (Or.inl rfl)).1
  · exact (missing_value_policy [("a_comp_cor_00", [some 1, none])]
      "a_comp_cor_00" [some 1, none] 0 (by decide)).2 (by decide) (by decide)

theorem extract_regressors_ok (confounds : ConfoundTable) (dropvols n : Nat) :
    ∀ (names : List String),
      (∀ name ∈ names, ∃ col, processRegressor confounds dropvols name = some col ∧
        col.length = n) →
      ∃ cols, extract_regressors confounds dropvols names = Except.ok cols ∧
        cols.length = names.length ∧ ∀ c ∈ cols, c.length = n := by
  intro names
  induction names with
  | nil => intro _; exact ⟨[], rfl, rfl, fun c hc => absurd hc (List.not_mem_nil c)⟩
  | cons a l ih =>
      intro h
      obtain ⟨col, hcol, hlen⟩ := h a (List.mem_cons_self a l)
      obtain ⟨cols, hcols, hclen, hall⟩ := ih (fun x hx => h x (List.mem_cons_of_mem a hx))
      refine ⟨col :: cols, ?_, ?_, ?_⟩
      · unfold extract_regressors
        rw [hcol, hcols]
        rfl
      · simp [hclen]
      · intro c hc
        rcases List.mem_cons.mp hc with rfl | hc'
        · exact hlen
        · exact hall c hc'

theorem motionParamsRows_const (n : Nat) :
    ∀ (cols : List (List (Option ℚ))), cols ≠ [] → (∀ c ∈ cols, c.length = n) →
      motionParamsRows cols = n := by
  intro cols
  induction cols with
  | nil => intro h; exact absurd rfl h
  | cons a l ih =>
      intro _ h
      have ha : a.length = n := h a (List.mem_cons_self a l)
      cases l with
      | nil =>
          unfold motionParamsRows
          simp [ha]
      | cons b m =>
          have hm : motionParamsRows (b :: m) = n :=
            ih (List.cons_ne_nil b m) (fun c hc => h c (List.mem_cons_of_mem a hc))
          unfold motionParamsRows at hm ⊢
          rw [List.map_cons, List.foldr_cons, hm, ha, Nat.max_self]

/-- Claim C5 (counterexample): with scrubbing enabled and one outlier,
the persisted RegressorMatrix keeps all 3 post-drop rows while the
SampleMask has only 2 entries — the row count does not equal
`|SampleMask|`. -/
theorem rowcount_vs_mask_cex :
    (create_motion_reg [("framewise_displacement", [some 0, some 1, some 2])]
        (some ["1"]) ["FD", "art"] ["framewise_displacement"] 0).toOption.map
      (fun out => (motionParamsRows out.motion_params, out.vol_indx.length)) =
      some (3, 2) ∧ (3 : Nat) ≠ 2 := by
  exact ⟨by decide, by decide⟩

/-- Claim C5 (amended): the row count of the RegressorMatrix equals the
full post-drop volume count `n` (the common post-drop column length) —
it equals `|SampleMask|` only when no volume is scrubbed, since the
regression receives all post-drop rows. -/
theorem regressor_rows_eq_postdrop (confounds : ConfoundTable)
    (artFile : Option (List String)) (opts names : List String) (dropvols n : Nat)
    (os : List Int)
    (hread : readOutliers artFile = Except.ok os)
    (hne : names ≠ [])
    (hcols : ∀ name ∈ names, ∃ col, processRegressor confounds dropvols name = some col ∧
      col.length = n)
    (hos : ∀ i ∈ os, 0 ≤ i ∧ i < (n : Int)) :
    ∃ out, create_motion_reg confounds artFile opts names dropvols = Except.ok out ∧
      motionParamsRows out.motion_params = n := by
  obtain ⟨cols, hcols', hclen, hall⟩ := extract_regressors_ok confounds dropvols n names hcols
  have hcne : cols ≠ [] := by
    intro hnil
    apply hne
    rw [← List.length_eq_zero, ← hclen, hnil]
    rfl
  have hrows : motionParamsRows cols = n := motionParamsRows_const n cols hcne hall
  obtain ⟨mask, hmask⟩ := compute_vol_indx_ok_of_bounded n opts os hos
  refine ⟨⟨cols, mask, os⟩, ?_, hrows⟩
  unfold create_motion_reg
  rw [hread]
  show (extract_regressors confounds dropvols names >>= _) = _
  rw [hcols']
  show (compute_vol_indx (motionParamsRows cols) opts os >>= _) = _
  rw [hrows, hmask]
  rfl

/-- Witness for C5's amended theorem at a concrete run. -/
theorem regressor_rows_eq_postdrop_witness :
    ∃ out, create_motion_reg [("framewise_displacement", [some 0, some 1, some 2])]
        (some ["1"]) ["FD", "art"] ["framewise_displacement"] 0 = Except.ok out ∧
      motionParamsRows out.motion_params = 3 :=
  regressor_rows_eq_postdrop [("framewise_displacement", [some 0, some 1, some 2])]
    (some ["1"]) ["FD", "art"] ["framewise_displacement"] 0 3 [1]
    (by decide) (by decide) (by
      intro name hname
      rcases List.mem_cons.mp hname with rfl | h
      · exact ⟨[some 0, some 1, some 2], rfl, rfl⟩
      · cases h)
    (by decide)

theorem mem_map_toNat_iff (O : List Int) (h : ∀ i ∈ O, 0 ≤ i) (j : Nat) :
    j ∈ O.map Int.toNat ↔ (j : Int) ∈ O := by
  constructor
  · intro hj
    obtain ⟨i, hi, rfl⟩ := List.mem_map.mp hj
    have := h i hi
    rwa [Int.toNat_of_nonneg this]
  · intro hj
    exact List.mem_map.mpr ⟨(j : Int), hj, by omega⟩

theorem npDelete_range (n : Nat) (O : List Int)
    (hb : ∀ i ∈ O, 0 ≤ i ∧ i < (n : Int)) :
    npDelete (List.range n) O =
      some ((List.range n).filter (fun (j : Nat) => decide ((j : Int) ∉ O))) := by
  unfold npDelete
  rw [List.length_range, mapM_normIdx_of_bounded n O hb]
  show some (((List.range n).filter
      (fun j => decide (j ∉ O.map Int.toNat))).filterMap
      (fun j => (List.range n).get? j)) =
    some ((List.range n).filter (fun (j : Nat) => decide ((j : Int) ∉ O)))
  have h1 : ∀ j ∈ List.range n,
      (decide (j ∉ O.map Int.toNat)) = decide ((j : Int) ∉ O) := by
    intro j _
    rw [decide_eq_decide]
    exact not_congr (mem_map_toNat_iff O (fun i hi => (hb i hi).1) j)
  rw [List.filter_congr h1]
  have h2 : ∀ j ∈ (List.range n).filter (fun (j : Nat) => decide ((j : Int) ∉ O)),
      (List.range n).get? j = some j := by
    intro j hj
    exact List.get?_range (List.mem_range.mp (List.mem_filter.mp hj).1)
  rw [filterMap_congr_mem _ some _ h2, List.filterMap_some]

theorem length_filter_not_mem (n : Nat) (O : List Int) (hnd : O.Nodup)
    (hb : ∀ i ∈ O, 0 ≤ i ∧ i < (n : Int)) :
    ((List.range n).filter (fun (j : Nat) => decide ((j : Int) ∉ O))).length = n - O.length := by
  have hsplit := @List.length_eq_length_filter_add Nat (List.range n)
    (fun (j : Nat) => decide ((j : Int) ∈ O))
  have hcong : (List.range n).filter (fun (j : Nat) => ! decide ((j : Int) ∈ O)) =
      (List.range n).filter (fun (j : Nat) => decide ((j : Int) ∉ O)) :=
    List.filter_congr (fun j _ => decide_not.symm)
  rw [hcong, List.length_range] at hsplit
  have hperm : ((List.range n).filter (fun (j : Nat) => decide ((j : Int) ∈ O))).Perm
      (O.map Int.toNat) := by
    apply List.perm_of_nodup_nodup_toFinset_eq
    · exact List.Nodup.filter _ (List.nodup_range n)
    · exact List.Nodup.map_on
        (fun x hx y hy hxy => by
          have := (hb x hx).1
          have := (hb y hy).1
          omega) hnd
    · apply Finset.ext
      intro a
      rw [List.mem_toFinset, List.mem_toFinset, List.mem_filter,
        mem_map_toNat_iff O (fun i hi => (hb i hi).1) a, List.mem_range]
      constructor
      · intro h
        exact of_decide_eq_true h.2
      · intro h
        refine ⟨?_, decide_eq_true h⟩
        have := (hb _ h).2
        omega
  have hOlen : ((List.range n).filter (fun (j : Nat) => decide ((j : Int) ∈ O))).length =
      O.length := by
    rw [hperm.length_eq, List.length_map]
  omega

/-- Claim C2: with scrubbing enabled, for every post-drop count `n` and
every OutlierList `O ⊆ [0, n)` (a set of distinct indices), the
SampleMask returned is the sorted complement of `O` in `[0, n)`:
strictly increasing, of length `n - |O|`. -/
theorem sample_mask_sorted_complement (n : Nat) (opts : List String) (O : List Int)
    (hart : "art" ∈ opts) (hnd : O.Nodup)
    (hb : ∀ i ∈ O, 0 ≤ i ∧ i < (n : Int)) :
    compute_vol_indx n opts O =
      Except.ok ((List.range n).filter (fun (j : Nat) => decide ((j : Int) ∉ O))) ∧
    List.Pairwise (· < ·) ((List.range n).filter (fun (j : Nat) => decide ((j : Int) ∉ O))) ∧
    ((List.range n).filter (fun (j : Nat) => decide ((j : Int) ∉ O))).length = n - O.length := by
  refine ⟨?_, List.Pairwise.filter _ (List.pairwise_lt_range n),
    length_filter_not_mem n O hnd hb⟩
  unfold compute_vol_indx
  by_cases hO : O = []
  · subst hO
    rw [if_neg (by simp)]
    have : ∀ j ∈ List.range n, true = decide ((j : Int) ∉ ([] : List Int)) := by
      simp
    rw [← List.filter_congr this, List.filter_true]
  · rw [if_pos ⟨List.elem_iff.mpr hart, hO⟩, npDelete_range n O hb]

/-- Witness for C2 at a concrete outlier set. -/
theorem sample_mask_sorted_complement_witness :
    compute_vol_indx 5 ["FD", "art"] [1, 3] =
      Except.ok ((List.range 5).filter (fun (j : Nat) => decide ((j : Int) ∉ [(1 : Int), 3]))) ∧
    List.Pairwise (· < ·)
      ((List.range 5).filter (fun (j : Nat) => decide ((j : Int) ∉ [(1 : Int), 3]))) ∧
    ((List.range 5).filter (fun (j : Nat) => decide ((j : Int) ∉ [(1 : Int), 3]))).length =
      5 - ([(1 : Int), 3]).length :=
  sample_mask_sorted_complement 5 ["FD", "art"] [1, 3] (by decide) (by decide) (by decide)

theorem padGo_spec {α : Type} (denoise : List α) (mask : List Nat) :
    ∀ (k : Nat), ∀ (s d : Nat), ∀ (todo : List Nat),
      List.Pairwise (· < ·) todo →
      (∀ v ∈ todo, s ≤ v ∧ v < s + k) →
      (∀ v, s ≤ v → (v ∈ mask ↔ v ∈ todo)) →
      d + todo.length = denoise.length →
      ∃ res, padGo denoise mask (List.range' s k) d = some res ∧
        res.length = k ∧
        (∀ j, j < k → (res.get? j = some none ↔ (s + j) ∉ todo)) ∧
        todo.filterMap (fun i => (res.get? (i - s)).getD none) = denoise.drop d := by
  intro k
  induction k with
  | zero =>
      intro s d todo hsort hbound hmem hlen
      have htodo : todo = [] := by
        cases todo with
        | nil => rfl
        | cons t ts => exact absurd (hbound t (List.mem_cons_self t ts)) (by omega)
      subst htodo
      refine ⟨[], rfl, rfl, fun j hj => absurd hj (Nat.not_lt_zero j), ?_⟩
      have hd : d = denoise.length := by simpa using hlen
      rw [List.filterMap_nil, hd, List.drop_length]
  | succ k ih =>
      intro s d todo hsort hbound hmem hlen
      by_cases hs : s ∈ mask
      · have hstodo : s ∈ todo := (hmem s (Nat.le_refl s)).mp hs
        obtain ⟨ts, rfl⟩ : ∃ ts, todo = s :: ts := by
          cases todo with
          | nil => cases hstodo
          | cons t ts =>
              rcases List.mem_cons.mp hstodo with h | h
              · exact ⟨ts, by rw [h]⟩
              · have h1 := (hbound t (List.mem_cons_self t ts)).1
                have h2 := (List.pairwise_cons.mp hsort).1 s h
                omega
        have hd : d < denoise.length := by
          simp only [List.length_cons] at hlen
          omega
        obtain ⟨res', hres', hlen', hmiss', hext'⟩ := ih (s + 1) (d + 1) ts
          (List.Pairwise.of_cons hsort)
          (fun v hv => by
            have h1 := hbound v (List.mem_cons_of_mem s hv)
            have h2 := (List.pairwise_cons.mp hsort).1 v hv
            omega)
          (fun v hv => by
            rw [hmem v (by omega)]
            constructor
            · intro h
              rcases List.mem_cons.mp h with h' | h'
              · omega
              · exact h'
            · exact List.mem_cons_of_mem s)
          (by
            simp only [List.length_cons] at hlen
            omega)
        refine ⟨some (denoise.get ⟨d, hd⟩) :: res', ?_, ?_, ?_, ?_⟩
        · rw [List.range'_succ]
          unfold padGo
          rw [if_pos hs, List.get?_eq_get hd, hres']
          rfl
        · simp [hlen']
        · intro j hj
          cases j with
          | zero =>
              constructor
              · intro h
                simp at h
              · intro h
                simp at h
          | succ j2 =>
              rw [List.get?_cons_succ]
              have harith : s + (j2 + 1) = (s + 1) + j2 := by omega
              rw [harith, hmiss' j2 (by omega)]
              constructor
              · intro h hc
                rcases List.mem_cons.mp hc with h' | h'
                · omega
                · exact h h'
              · intro h hc
                exact h (List.mem_cons_of_mem s hc)
        · rw [List.filterMap_cons]
          have hf : (((some (denoise.get ⟨d, hd⟩) :: res').get? (s - s)).getD none) =
              some (denoise.get ⟨d, hd⟩) := by
            rw [Nat.sub_self]
            rfl
          rw [hf]
          have htail : ts.filterMap
              (fun i => (((some (denoise.get ⟨d, hd⟩) :: res').get? (i - s)).getD none)) =
              ts.filterMap (fun i => ((res'.get? (i - (s + 1))).getD none)) := by
            apply filterMap_congr_mem
            intro i hi
            have h2 := (List.pairwise_cons.mp hsort).1 i hi
            have h3 : i - s = (i - (s + 1)) + 1 := by omega
            rw [h3, List.get?_cons_succ]
          rw [htail, hext', List.drop_eq_getElem_cons hd, List.get_eq_getElem]
      · have hstodo : s ∉ todo := fun hc => hs ((hmem s (Nat.le_refl s)).mpr hc)
        obtain ⟨res', hres', hlen', hmiss', hext'⟩ := ih (s + 1) d todo
          hsort
          (fun v hv => by
            have h1 := hbound v hv
            have h2 : v ≠ s := fun he => hstodo (he ▸ hv)
            omega)
          (fun v hv => hmem v (by omega))
          hlen
        refine ⟨(none : Option α) :: res', ?_, ?_, ?_, ?_⟩
        · rw [List.range'_succ]
          unfold padGo
          rw [if_neg hs, hres']
          rfl
        · simp [hlen']
        · intro j hj
          cases j with
          | zero =>
              constructor
              · intro _
                simpa using hstodo
              · intro _
                rfl
          | succ j2 =>
              rw [List.get?_cons_succ]
              have harith : s + (j2 + 1) = (s + 1) + j2 := by omega
              rw [harith]
              exact hmiss' j2 (by omega)
        · have htail : todo.filterMap
              (fun i => ((((none : Option α) :: res').get? (i - s)).getD none)) =
              todo.filterMap (fun i => ((res'.get? (i - (s + 1))).getD none)) := by
            apply filterMap_congr_mem
            intro i hi
            have h1 := (hbound i hi).1
            have h2 : i ≠ s := fun he => hstodo (he ▸ hi)
            have h3 : i - s = (i - (s + 1)) + 1 := by omega
            rw [h3, List.get?_cons_succ]
          rw [htail, hext']

/-- Claim C1: gap-reconstruction round trip.  For a DenoisedSeries with
`|SampleMask|` frames and a strictly increasing SampleMask over `[0, n)`,
the padding loop succeeds and produces a PaddedSeries of exactly `n`
frames, frame `i` is the all-missing frame iff `i ∉ SampleMask`, and
extracting the frames at the SampleMask indices in increasing order
reproduces the DenoisedSeries exactly. -/
theorem padSeries_roundtrip {α : Type} (denoise : List α) (mask : List Nat) (n : Nat)
    (hsort : List.Pairwise (· < ·) mask)
    (hbound : ∀ v ∈ mask, v < n)
    (hlen : denoise.length = mask.length) :
    ∃ padded, padSeries denoise mask n = some padded ∧
      padded.length = n ∧
      (∀ i, i < n → (padded.get? i = some none ↔ i ∉ mask)) ∧
      extractAt padded mask = denoise := by
  obtain ⟨res, hres, hreslen, hmiss, hext⟩ := padGo_spec denoise mask n 0 0 mask hsort
    (fun v hv => ⟨Nat.zero_le v, by simpa using hbound v hv⟩)
    (fun v _ => Iff.rfl)
    (by simpa using hlen.symm)
  refine ⟨res, ?_, hreslen, ?_, ?_⟩
  · rw [padSeries, List.range_eq_range']
    exact hres
  · intro i hi
    have := hmiss i hi
    rwa [Nat.zero_add] at this
  · rw [extractAt]
    have hcong : mask.filterMap (fun i => ((res.get? i).getD none)) =
        mask.filterMap (fun i => ((res.get? (i - 0)).getD none)) := by
      apply filterMap_congr_mem
      intro i _
      rw [Nat.sub_zero]
    rw [hcong, hext, List.drop_zero]

/-- Witness for C1 at a concrete denoised series and mask. -/
theorem padSeries_roundtrip_witness :
    ∃ padded, padSeries [(10 : Int), 20] [0, 2] 3 = some padded ∧
      padded.length = 3 ∧
      (∀ i, i < 3 → (padded.get? i = some none ↔ i ∉ [0, 2])) ∧
      extractAt padded [0, 2] = [(10 : Int), 20] :=
  padSeries_roundtrip [(10 : Int), 20] [0, 2] 3 (by decide) (by decide) (by decide)
